import Mathlib

/-
Verification of the typed control-value marshalling and list/iterator layer
of libcamera-rs (src/libcamera/src/control.rs), over a shallow embedding.

The file embeds:
  * the tagged value representation and its marshaller (the companion module
    `control_value.rs` is not part of the sources here; it is modelled from
    the design document's description of the Tagged Value / Value Marshaller),
  * the typed entry protocol (`ControlEntry`, with the `Control` and
    `Property` capability refinements),
  * the native list primitives consumed through the C interface (modelled
    from the design document's external-interface contract),
  * `ControlList` / `PropertyList` get and set, `ControlInfo.values`,
    and the list iterator `next`, translated from `control.rs`.
-/

set_option autoImplicit false

namespace LibcameraRS

/-- Modelled from the spec: the Tagged Value of `control_value.rs` (not under
the sources here) — a closed variant over booleans, 32- and 64-bit signed
integers, floats, strings, rectangles, sizes and points, each in scalar or
array form, plus an unset/unknown state.  Floats are carried by their bit
pattern, since no arithmetic on them occurs in this layer. -/
inductive ControlValue where
  | unset
  | bool (b : Bool)
  | int32 (n : Int)
  | int64 (n : Int)
  | float (bits : Nat)
  | string (s : String)
  | rectangle (x y : Int) (width height : Nat)
  | size (width height : Nat)
  | point (x y : Int)
  | boolArray (a : List Bool)
  | int32Array (a : List Int)
  | int64Array (a : List Int)
  | floatArray (a : List Nat)
  | stringArray (a : List String)
  | rectangleArray (a : List (Int × Int × Nat × Nat))
  | sizeArray (a : List (Nat × Nat))
  | pointArray (a : List (Int × Int))
deriving DecidableEq, Repr

/-- Numeric type tag of a Tagged Value, as declared by the native
representation (arrays share the base kind's tag). -/
def ControlValue.tagOf : ControlValue → Nat
  | .unset => 0
  | .bool _ => 1
  | .int32 _ => 3
  | .int64 _ => 4
  | .float _ => 5
  | .string _ => 6
  | .rectangle _ _ _ _ => 7
  | .size _ _ => 8
  | .point _ _ => 9
  | .boolArray _ => 1
  | .int32Array _ => 3
  | .int64Array _ => 4
  | .floatArray _ => 5
  | .stringArray _ => 6
  | .rectangleArray _ => 7
  | .sizeArray _ => 8
  | .pointArray _ => 9

/-- Modelled from the spec: the `ControlValueError` of `control_value.rs`
(not under the sources here) — decode fails when the native tag is
unrecognized or the payload is malformed (e.g. a declared array length that
cannot be read); typed conversion fails on tag mismatch, carrying the
offending tag. -/
inductive ControlValueError where
  | unknownType (tag : Nat)
  | malformedPayload
deriving DecidableEq, Repr

/-- `ControlError` from `control.rs` lines 17–23: `NotFound(u32)` or
`ValueError(ControlValueError)`. -/
inductive ControlError where
  | NotFound (id : Nat)
  | ValueError (e : ControlValueError)
deriving DecidableEq, Repr

/-- Modelled from the spec: a native value handle as observed through the C
interface.  It either holds a well-formed encoding of a Tagged Value (as
produced by the marshaller's `write`), or is a blob whose decode fails with
the given error. -/
inductive NativeValue where
  | enc (v : ControlValue)
  | malformed (e : ControlValueError)
deriving DecidableEq, Repr

/-- Modelled from the spec: `ControlValue::read` of the Value Marshaller —
decodes a native value handle into a Tagged Value, failing with a
`ControlValueError` on an unrecognized tag or malformed payload; never
mutates or frees the handle. -/
def ControlValue.read : NativeValue → Except ControlValueError ControlValue
  | .enc v => .ok v
  | .malformed e => .error e

/-- Modelled from the spec: `ControlValue::write` of the Value Marshaller —
writes tag and payload into an allocated native handle; the round trip with
`read` preserves the value, including the scalar/array distinction. -/
def ControlValue.write (v : ControlValue) : NativeValue :=
  .enc v

/-- The typed entry protocol of `control.rs` lines 25–29: a compile-time
fixed numeric identifier `ID`, plus `Into<ControlValue>` (`into`) and
`TryFrom<ControlValue, Error = ControlValueError>` (`try_from`). -/
structure ControlEntry (α : Type) where
  ID : Nat
  into : α → ControlValue
  try_from : ControlValue → Except ControlValueError α

/-- The `Control` capability marker of `control.rs` line 31: a typed entry
accepted by `ControlList`. -/
structure Control (α : Type) extends ControlEntry α

/-- The `Property` capability marker of `control.rs` line 32: a typed entry
accepted by `PropertyList`. -/
structure Property (α : Type) extends ControlEntry α

/-- The round-trip law of the typed entry protocol (spec §3/§4.2):
`from_tagged (to_tagged v) = v` for every constructible value. -/
def ControlEntry.RoundTrip {α : Type} (E : ControlEntry α) : Prop :=
  ∀ v : α, E.try_from (E.into v) = .ok v

/-- The native `libcamera_control_list_t`: an associative collection from
numeric identifier to native value, native order preserved. -/
abbrev ControlListState := List (Nat × NativeValue)

/-- Modelled from the spec: the native `libcamera_control_list_get`
primitive — get-by-id, returning the stored value handle or a
null-equivalent when the identifier is absent; read-only. -/
def libcamera_control_list_get : ControlListState → Nat → Option NativeValue
  | [], _ => Option.none
  | p :: rest, id => if p.1 == id then Option.some p.2 else libcamera_control_list_get rest id

/-- Modelled from the spec: the native `libcamera_control_list_set`
primitive — set-by-id, overwriting any existing entry at the identifier and
inserting (appending in native order) if absent. -/
def libcamera_control_list_set : ControlListState → Nat → NativeValue → ControlListState
  | [], id, v => [(id, v)]
  | p :: rest, id, v =>
    if p.1 == id then (id, v) :: rest else p :: libcamera_control_list_set rest id v

/-- `ControlList::get` from `control.rs` lines 169–175: look up `C::ID` in
the native list (`NotFound` when the pointer is null), decode the native
value (`?` propagates a `ValueError`), then convert via `C::try_from` (`?`
again propagates a `ValueError`). -/
def ControlList.get {α : Type} (l : ControlListState) (C : Control α) : Except ControlError α :=
  match libcamera_control_list_get l C.ID with
  | Option.none => .error (.NotFound C.ID)
  | Option.some val_ptr =>
    match ControlValue.read val_ptr with
    | .error e => .error (.ValueError e)
    | .ok val =>
      match C.try_from val with
      | .error e => .error (.ValueError e)
      | .ok c => .ok c

/-- `ControlList::set` from `control.rs` lines 181–192: convert the value
into a Tagged Value, create a native handle, write the encoding into it,
store it in the native list at `C::ID`, destroy the transient handle, and
return `Ok(())` unconditionally.  The result pairs the returned `Result`
with the resulting native list state. -/
def ControlList.set {α : Type} (l : ControlListState) (C : Control α) (val : α) :
    Except ControlError Unit × ControlListState :=
  let ctrl_val : ControlValue := C.into val
  let val_ptr : NativeValue := ControlValue.write ctrl_val
  let l2 := libcamera_control_list_set l C.ID val_ptr
  (.ok (), l2)

/-- `PropertyList::get` from `control.rs` lines 240–246: same body as
`ControlList::get`, with the `Property` capability bound instead. -/
def PropertyList.get {α : Type} (l : ControlListState) (C : Property α) : Except ControlError α :=
  match libcamera_control_list_get l C.ID with
  | Option.none => .error (.NotFound C.ID)
  | Option.some val_ptr =>
    match ControlValue.read val_ptr with
    | .error e => .error (.ValueError e)
    | .ok val =>
      match C.try_from val with
      | .error e => .error (.ValueError e)
      | .ok c => .ok c

/-- `PropertyList::set` from `control.rs` lines 252–263: same body as
`ControlList::set`, with the `Property` capability bound instead. -/
def PropertyList.set {α : Type} (l : ControlListState) (C : Property α) (val : α) :
    Except ControlError Unit × ControlListState :=
  let ctrl_val : ControlValue := C.into val
  let val_ptr : NativeValue := ControlValue.write ctrl_val
  let l2 := libcamera_control_list_set l C.ID val_ptr
  (.ok (), l2)

/-- Helper of `ControlInfo::values` (`control.rs` lines 93–98): decode each
element of the native backing array in order, collecting into a single
`Result` — the first decode failure aborts the whole collection with that
error, yielding no partial results. -/
def collectReads : List NativeValue → Except ControlValueError (List ControlValue)
  | [] => .ok []
  | nv :: rest =>
    match ControlValue.read nv with
    | .error e => .error e
    | .ok v =>
      match collectReads rest with
      | .error e => .error e
      | .ok vs => .ok (v :: vs)

/-- `ControlInfo::values` from `control.rs` lines 87–103: query the native
handle for the count and backing array of declared discrete values (modelled
as the list `decls`, whose length is the out-parameter count), decode each
element in native order, then release the array allocation. -/
def ControlInfo.values (decls : List NativeValue) : Except ControlValueError (List ControlValue) :=
  collectReads decls

/-- `ControlListRefIterator` from `control.rs` lines 297–300: the native
cursor, modelled by the still-unvisited suffix of the list snapshot taken at
iterator creation. -/
structure ControlListRefIterator where
  remaining : List (Nat × NativeValue)
deriving DecidableEq, Repr

/-- Outcome of one `next()` call: either the process aborts (an `unwrap` on
a decode failure panics), or the iterator moves to a new cursor state and
yields an optional (identifier, value) pair — `Option.none` means
end-of-sequence. -/
inductive StepResult where
  | fatal
  | yield (st : ControlListRefIterator) (out : Option (Nat × ControlValue))
deriving DecidableEq, Repr

/-- `ControlListRefIterator::next` from `control.rs` lines 305–318: if the
native cursor reports end-of-sequence, yield nothing; otherwise read the
current identifier and value handle, decode the value (the `unwrap` makes a
decode failure fatal), advance the cursor, and yield the pair. -/
def ControlListRefIterator.next (it : ControlListRefIterator) : StepResult :=
  match it.remaining with
  | [] => .yield ⟨[]⟩ Option.none
  | (id, val_ptr) :: rest =>
    match ControlValue.read val_ptr with
    | .error _ => .fatal
    | .ok val => .yield ⟨rest⟩ (Option.some (id, val))

/-- Result of the `n`-th further `next()` call starting from cursor state
`it` (counting from 1): thread the cursor state through the preceding calls,
propagating a fatal abort. -/
def ControlListRefIterator.nthNext : Nat → ControlListRefIterator → StepResult
  | 0, it => it.next
  | n + 1, it =>
    match it.next with
    | .fatal => .fatal
    | .yield it2 _ => ControlListRefIterator.nthNext n it2

/-- `IntoIterator for &ControlList` (`control.rs` lines 195–206): bind a
fresh native cursor positioned at the first pair of the list. -/
def ControlList.iter (l : ControlListState) : ControlListRefIterator :=
  ⟨l⟩

/-- A transient native resource acquired or released by one operation:
a value handle (`libcamera_control_value_create` /
`libcamera_control_info_min`-style getters, released by
`libcamera_control_value_destroy`) or the declared-values array (released by
`free`).  The `Nat` distinguishes separate acquisitions within one
operation. -/
inductive ResEvent where
  | allocValue (h : Nat)
  | freeValue (h : Nat)
  | allocArray (h : Nat)
  | freeArray (h : Nat)
deriving DecidableEq, Repr

/-- Handles of value allocations in a trace. -/
def valueAllocs (tr : List ResEvent) : List Nat :=
  tr.filterMap fun e => match e with | .allocValue h => Option.some h | _ => Option.none

/-- Handles of value releases in a trace. -/
def valueFrees (tr : List ResEvent) : List Nat :=
  tr.filterMap fun e => match e with | .freeValue h => Option.some h | _ => Option.none

/-- Handles of array allocations in a trace. -/
def arrayAllocs (tr : List ResEvent) : List Nat :=
  tr.filterMap fun e => match e with | .allocArray h => Option.some h | _ => Option.none

/-- Handles of array releases in a trace. -/
def arrayFrees (tr : List ResEvent) : List Nat :=
  tr.filterMap fun e => match e with | .freeArray h => Option.some h | _ => Option.none

/-- Every transient allocation in the trace is released exactly as many
times as it is acquired — with distinct handles, exactly once each. -/
def ReleasedExactly (tr : List ResEvent) : Prop :=
  ∀ h : Nat, (valueAllocs tr).count h = (valueFrees tr).count h ∧
    (arrayAllocs tr).count h = (arrayFrees tr).count h

/-- `ControlInfo::min` from `control.rs` lines 63–70, instrumented with its
native-resource trace: `libcamera_control_info_min` yields a transient value
handle (holding `bound`), the handle is decoded into `tmp`, the handle is
destroyed, and `tmp` is returned — the destroy is on the straight-line path
before the return, so it happens whether or not the decode failed. -/
def ControlInfo.minOp (bound : NativeValue) :
    Except ControlValueError ControlValue × List ResEvent :=
  let tmp := ControlValue.read bound
  (tmp, [ResEvent.allocValue 0, ResEvent.freeValue 0])

/-- `ControlInfo::max` from `control.rs` lines 71–78, instrumented exactly
like `ControlInfo.minOp`. -/
def ControlInfo.maxOp (bound : NativeValue) :
    Except ControlValueError ControlValue × List ResEvent :=
  let tmp := ControlValue.read bound
  (tmp, [ResEvent.allocValue 0, ResEvent.freeValue 0])

/-- `ControlInfo::def` from `control.rs` lines 79–86, instrumented exactly
like `ControlInfo.minOp`. -/
def ControlInfo.defOp (bound : NativeValue) :
    Except ControlValueError ControlValue × List ResEvent :=
  let tmp := ControlValue.read bound
  (tmp, [ResEvent.allocValue 0, ResEvent.freeValue 0])

/-- `ControlInfo::values` from `control.rs` lines 87–103, instrumented with
its native-resource trace: the native call hands over the backing array, the
elements are decoded and collected (possibly into an error), and the array
is freed after the collection on the straight-line path, so the free happens
whether or not any decode failed. -/
def ControlInfo.valuesOp (decls : List NativeValue) :
    Except ControlValueError (List ControlValue) × List ResEvent :=
  let values := collectReads decls
  (values, [ResEvent.allocArray 0, ResEvent.freeArray 0])

/-- `ControlList::set` from `control.rs` lines 181–192, instrumented with
its native-resource trace: `libcamera_control_value_create` allocates a
transient handle, the encoded value is written into it, the native list
stores it, and `libcamera_control_value_destroy` releases it on the
straight-line path before `Ok(())` is returned. -/
def ControlList.setOp {α : Type} (l : ControlListState) (C : Control α) (val : α) :
    (Except ControlError Unit × ControlListState) × List ResEvent :=
  (ControlList.set l C val, [ResEvent.allocValue 0, ResEvent.freeValue 0])

/-- `PropertyList::set` from `control.rs` lines 252–263, instrumented with
its native-resource trace, exactly like `ControlList.setOp`. -/
def PropertyList.setOp {α : Type} (l : ControlListState) (C : Property α) (val : α) :
    (Except ControlError Unit × ControlListState) × List ResEvent :=
  (PropertyList.set l C val, [ResEvent.allocValue 0, ResEvent.freeValue 0])

/-- Modelled from the spec: the native get-by-id primitive in
state-threading form — per the external-interface contract it is a read, so
it returns the looked-up handle together with the (unchanged) list state. -/
def libcamera_control_list_getS (l : ControlListState) (id : Nat) :
    Option NativeValue × ControlListState :=
  (libcamera_control_list_get l id, l)

/-- `ControlList::get` in state-threading form: every native call the body
makes (the get-by-id lookup and the marshaller's read, both read-only per
the external-interface contract) passes the list state along, and each exit
path returns the state it reached. -/
def ControlList.getS {α : Type} (l : ControlListState) (C : Control α) :
    Except ControlError α × ControlListState :=
  match libcamera_control_list_getS l C.ID with
  | (Option.none, l1) => (.error (.NotFound C.ID), l1)
  | (Option.some val_ptr, l1) =>
    match ControlValue.read val_ptr with
    | .error e => (.error (.ValueError e), l1)
    | .ok val =>
      match C.try_from val with
      | .error e => (.error (.ValueError e), l1)
      | .ok c => (.ok c, l1)

/-- `ControlListRefIterator::next` in state-threading form: the cursor reads
the snapshot it holds; its native calls (end-test, current-id,
current-value, advance) act on the cursor only, so the underlying list state
is passed through each exit path. -/
def ControlListRefIterator.nextS (it : ControlListRefIterator) (l : ControlListState) :
    StepResult × ControlListState :=
  (it.next, l)

/-- Modelled from the spec: the concrete control `AeEnable` of the generated
identifier tables (not under the sources here) — a boolean-tagged scalar
entry; `try_from` fails with the offending tag on mismatch. -/
def AeEnable : Control Bool where
  ID := 1
  into := fun b => .bool b
  try_from := fun v =>
    match v with
    | .bool b => .ok b
    | other => .error (.unknownType other.tagOf)

/-- Modelled from the spec: the concrete control `ExposureTime` of the
generated identifier tables (not under the sources here) — a 32-bit
signed-integer-tagged scalar entry; `try_from` fails with the offending tag
on mismatch. -/
def ExposureTime : Control Int where
  ID := 7
  into := fun n => .int32 n
  try_from := fun v =>
    match v with
    | .int32 n => .ok n
    | other => .error (.unknownType other.tagOf)

/-- Modelled from the spec: the concrete property `Model` of the generated
identifier tables (not under the sources here) — a string-tagged scalar
entry; `try_from` fails with the offending tag on mismatch. -/
def CameraModel : Property String where
  ID := 3
  into := fun s => .string s
  try_from := fun v =>
    match v with
    | .string s => .ok s
    | other => .error (.unknownType other.tagOf)

/-- Modelled from the spec: the concrete control `FrameDurationLimits` of
the generated identifier tables (not under the sources here) — a 64-bit
signed-integer-array-tagged entry; `try_from` fails with the offending tag
on mismatch. -/
def FrameDurationLimits : Control (List Int) where
  ID := 25
  into := fun a => .int64Array a
  try_from := fun v =>
    match v with
    | .int64Array a => .ok a
    | other => .error (.unknownType other.tagOf)

/-! ### Helper lemmas -/

theorem get_set_self (l : ControlListState) (id : Nat) (v : NativeValue) :
    libcamera_control_list_get (libcamera_control_list_set l id v) id = Option.some v := by
  induction l with
  | nil => simp [libcamera_control_list_set, libcamera_control_list_get]
  | cons p rest ih =>
    by_cases h : (p.1 == id) = true
    · simp [libcamera_control_list_set, h, libcamera_control_list_get]
    · simp [libcamera_control_list_set, h, libcamera_control_list_get, ih]

theorem collectReads_eq_ok (ds : List NativeValue) (vs : List ControlValue) :
    collectReads ds = .ok vs ↔ ds.map ControlValue.read = vs.map Except.ok := by
  induction ds generalizing vs with
  | nil => cases vs <;> simp [collectReads]
  | cons nv rest ih =>
    cases hr : ControlValue.read nv with
    | error e => cases vs <;> simp [collectReads, hr]
    | ok v =>
      cases hc : collectReads rest with
      | error e =>
        cases vs with
        | nil => simp [collectReads, hr, hc]
        | cons v2 vs2 =>
          simp only [collectReads, hr, hc, List.map_cons, List.cons.injEq]
          constructor
          · intro h
            exact absurd h (by simp)
          · rintro ⟨h1, h2⟩
            rw [← ih vs2] at h2
            rw [h2] at hc
            exact absurd hc (by simp)
      | ok ws =>
        have hmap := (ih ws).mp hc
        cases vs with
        | nil => simp [collectReads, hr, hc]
        | cons v2 vs2 =>
          simp only [collectReads, hr, hc, List.map_cons, List.cons.injEq, Except.ok.injEq]
          constructor
          · rintro ⟨h1, rfl⟩
            exact ⟨h1, hmap⟩
          · rintro ⟨h1, h2⟩
            refine ⟨h1, ?_⟩
            have h3 := (ih vs2).mpr h2
            rw [hc] at h3
            injection h3

theorem collectReads_first_error (pre post : List NativeValue) (nv : NativeValue)
    (e : ControlValueError) (hpre : ∀ m ∈ pre, ∃ v, ControlValue.read m = .ok v)
    (herr : ControlValue.read nv = .error e) :
    collectReads (pre ++ nv :: post) = .error e := by
  induction pre with
  | nil => simp [collectReads, herr]
  | cons m rest ih =>
    obtain ⟨v, hv⟩ := hpre m (List.mem_cons_self m rest)
    have htail := ih fun m2 hm2 => hpre m2 (List.mem_cons_of_mem m hm2)
    simp [collectReads, hv, htail]

/-! ### Claim theorems -/

/-- C1: for every typed entry type, `get` on an Entry List returns
`NotFound(ID)` exactly when no entry is stored under the entry's identifier;
when an entry is present and decodes but the typed conversion rejects its
tag, `get` returns that `ValueError` (never a coerced value); and when the
conversion succeeds it returns the decoded typed value.  Both the Control
List and the Property List variant are covered. -/
theorem get_notfound_iff_absent {α β : Type} (C : Control α) (P : Property β)
    (l : ControlListState) :
    (ControlList.get l C = .error (.NotFound C.ID) ↔
      libcamera_control_list_get l C.ID = Option.none) ∧
    (∀ nv v e, libcamera_control_list_get l C.ID = Option.some nv →
      ControlValue.read nv = .ok v → C.try_from v = .error e →
      ControlList.get l C = .error (.ValueError e)) ∧
    (∀ nv v c, libcamera_control_list_get l C.ID = Option.some nv →
      ControlValue.read nv = .ok v → C.try_from v = .ok c →
      ControlList.get l C = .ok c) ∧
    (PropertyList.get l P = .error (.NotFound P.ID) ↔
      libcamera_control_list_get l P.ID = Option.none) ∧
    (∀ nv v e, libcamera_control_list_get l P.ID = Option.some nv →
      ControlValue.read nv = .ok v → P.try_from v = .error e →
      PropertyList.get l P = .error (.ValueError e)) ∧
    (∀ nv v c, libcamera_control_list_get l P.ID = Option.some nv →
      ControlValue.read nv = .ok v → P.try_from v = .ok c →
      PropertyList.get l P = .ok c) := by
  refine ⟨?_, ?_, ?_, ?_, ?_, ?_⟩
  · unfold ControlList.get
    cases h : libcamera_control_list_get l C.ID with
    | none => simp
    | some nv =>
      cases hr : ControlValue.read nv with
      | error e => simp [hr]
      | ok v =>
        cases ht : C.try_from v with
        | error e => simp [hr, ht]
        | ok c => simp [hr, ht]
  · intro nv v e h1 h2 h3
    simp [ControlList.get, h1, h2, h3]
  · intro nv v c h1 h2 h3
    simp [ControlList.get, h1, h2, h3]
  · unfold PropertyList.get
    cases h : libcamera_control_list_get l P.ID with
    | none => simp
    | some nv =>
      cases hr : ControlValue.read nv with
      | error e => simp [hr]
      | ok v =>
        cases ht : P.try_from v with
        | error e => simp [hr, ht]
        | ok c => simp [hr, ht]
  · intro nv v e h1 h2 h3
    simp [PropertyList.get, h1, h2, h3]
  · intro nv v c h1 h2 h3
    simp [PropertyList.get, h1, h2, h3]

/-- Witness for C1: a boolean-typed control read from a list that stores a
32-bit integer under its identifier yields the tag-mismatch `ValueError`. -/
theorem get_notfound_iff_absent_witness :
    ControlList.get [(1, NativeValue.enc (ControlValue.int32 5))] AeEnable =
      .error (.ValueError (.unknownType 3)) :=
  (get_notfound_iff_absent AeEnable CameraModel
    [(1, NativeValue.enc (ControlValue.int32 5))]).2.1
    (NativeValue.enc (ControlValue.int32 5)) (ControlValue.int32 5)
    (ControlValueError.unknownType 3) rfl rfl rfl

/-- C2: for a typed entry satisfying the protocol's round-trip law, `set`
followed by `get` of the same entry type returns the value that was set, on
every Entry List state; and `set` writes the encoded value into the native
collection at the entry's identifier, overwriting any existing entry and
inserting if absent. -/
theorem set_then_get {α : Type} (C : Control α) (l : ControlListState) (v : α)
    (hrt : ControlEntry.RoundTrip C.toControlEntry) :
    ControlList.get (ControlList.set l C v).2 C = .ok v ∧
    (ControlList.set l C v).2 =
      libcamera_control_list_set l C.ID (ControlValue.write (C.into v)) := by
  refine ⟨?_, rfl⟩
  show ControlList.get (libcamera_control_list_set l C.ID (ControlValue.write (C.into v))) C
    = .ok v
  unfold ControlList.get
  rw [get_set_self]
  simp [ControlValue.read, ControlValue.write, hrt v]

/-- Witness for C2: setting the boolean control to `true` on the empty list
and reading it back yields `true`. -/
theorem set_then_get_witness :
    ControlList.get (ControlList.set [] AeEnable true).2 AeEnable = .ok true :=
  (set_then_get AeEnable [] true (fun _ => rfl)).1

/-- C3: for every modelled concrete typed entry type (a boolean control, a
32-bit integer control, a string property, a 64-bit integer-array control)
and every value constructible by that type, converting to a Tagged Value and
back yields the same value. -/
theorem concrete_entries_roundtrip :
    ControlEntry.RoundTrip AeEnable.toControlEntry ∧
    ControlEntry.RoundTrip ExposureTime.toControlEntry ∧
    ControlEntry.RoundTrip CameraModel.toControlEntry ∧
    ControlEntry.RoundTrip FrameDurationLimits.toControlEntry :=
  ⟨fun _ => rfl, fun _ => rfl, fun _ => rfl, fun _ => rfl⟩

/-- C4: `set` returns `Ok` unconditionally, for every typed entry value and
every Entry List state, in both the Control List and the Property List
variant — the layer never reports an error from `set`, even for identifiers
the device does not support. -/
theorem set_always_ok {α β : Type} (C : Control α) (P : Property β)
    (l l2 : ControlListState) (v : α) (w : β) :
    (ControlList.set l C v).1 = .ok () ∧ (PropertyList.set l2 P w).1 = .ok () :=
  ⟨rfl, rfl⟩

/-- C5: during iteration, a decode failure on the current native value makes
`next` abort fatally (the `unwrap`), not return a recoverable per-pair
error; conversely any pair `next` yields comes from a successful decode of
the cursor head. -/
theorem next_decode_failure_fatal (it : ControlListRefIterator) :
    (∀ id nv rest e, it.remaining = (id, nv) :: rest →
      ControlValue.read nv = .error e → it.next = .fatal) ∧
    (∀ it2 id v, it.next = .yield it2 (Option.some (id, v)) →
      ∃ nv rest, it.remaining = (id, nv) :: rest ∧
        ControlValue.read nv = .ok v ∧ it2 = ⟨rest⟩) := by
  obtain ⟨r⟩ := it
  constructor
  · intro id nv rest e hrem herr
    have hr : r = (id, nv) :: rest := hrem
    subst hr
    simp [ControlListRefIterator.next, herr]
  · intro it2 id v h
    cases r with
    | nil => exact absurd h (by simp [ControlListRefIterator.next])
    | cons p rest =>
      obtain ⟨pid, pnv⟩ := p
      cases hr : ControlValue.read pnv with
      | error e =>
        rw [show ControlListRefIterator.next ⟨(pid, pnv) :: rest⟩ = .fatal from by
          simp [ControlListRefIterator.next, hr]] at h
        exact absurd h (by simp)
      | ok w =>
        have hn : ControlListRefIterator.next ⟨(pid, pnv) :: rest⟩
            = .yield ⟨rest⟩ (Option.some (pid, w)) := by
          simp [ControlListRefIterator.next, hr]
        rw [hn] at h
        injection h with h1 h2
        injection h2 with h3
        injection h3 with h4 h5
        exact ⟨pnv, rest, by rw [h4], h5 ▸ hr, h1.symm⟩

/-- Witness for C5: a one-entry cursor whose value is malformed makes `next`
abort fatally. -/
theorem next_decode_failure_fatal_witness :
    ControlListRefIterator.next
      ⟨[(5, NativeValue.malformed ControlValueError.malformedPayload)]⟩ = .fatal :=
  (next_decode_failure_fatal
    ⟨[(5, NativeValue.malformed ControlValueError.malformedPayload)]⟩).1
    5 (NativeValue.malformed ControlValueError.malformedPayload) []
    ControlValueError.malformedPayload rfl rfl

/-- C6: once the native cursor reports end-of-sequence, `next` yields
nothing, the cursor state is unchanged, and every subsequent call (the
`n`-th, for every `n`) still yields nothing: exhaustion is permanent. -/
theorem exhausted_permanent (it : ControlListRefIterator) (h : it.remaining = []) :
    ∀ n : Nat, ControlListRefIterator.nthNext n it = .yield it Option.none := by
  obtain ⟨r⟩ := it
  have hr : r = [] := h
  subst hr
  intro n
  induction n with
  | zero => rfl
  | succ n ih => simp [ControlListRefIterator.nthNext, ControlListRefIterator.next, ih]

/-- Witness for C6: the third call on an exhausted cursor still yields
nothing and leaves the cursor exhausted. -/
theorem exhausted_permanent_witness :
    ControlListRefIterator.nthNext 2 ⟨[]⟩ = .yield ⟨[]⟩ Option.none :=
  exhausted_permanent ⟨[]⟩ rfl 2

/-- C7: `values` on a control with `K` declared native elements succeeds
exactly when every element decodes, and then returns exactly the `K` decoded
values in native order (empty for `K = 0`); if decoding one element fails
(all elements before it decoding fine), the whole call returns that
element's error, with no partial results. -/
theorem values_count_and_failfast (decls : List NativeValue) :
    (∀ vs, ControlInfo.values decls = .ok vs ↔
      decls.map ControlValue.read = vs.map Except.ok) ∧
    (∀ vs, ControlInfo.values decls = .ok vs → vs.length = decls.length) ∧
    (∀ pre nv post e, decls = pre ++ nv :: post →
      (∀ m ∈ pre, ∃ v, ControlValue.read m = .ok v) →
      ControlValue.read nv = .error e →
      ControlInfo.values decls = .error e) := by
  refine ⟨fun vs => collectReads_eq_ok decls vs, ?_, ?_⟩
  · intro vs h
    have hmap := (collectReads_eq_ok decls vs).mp h
    have hlen := congrArg List.length hmap
    simpa using hlen.symm
  · rintro pre nv post e rfl hpre herr
    exact collectReads_first_error pre post nv e hpre herr

/-- Witness for C7: a two-element declared set whose second element is
malformed makes `values` return exactly that element's error. -/
theorem values_count_and_failfast_witness :
    ControlInfo.values [NativeValue.enc (ControlValue.bool true),
      NativeValue.malformed ControlValueError.malformedPayload] =
      .error ControlValueError.malformedPayload :=
  (values_count_and_failfast [NativeValue.enc (ControlValue.bool true),
      NativeValue.malformed ControlValueError.malformedPayload]).2.2
    [NativeValue.enc (ControlValue.bool true)]
    (NativeValue.malformed ControlValueError.malformedPayload) []
    ControlValueError.malformedPayload rfl
    (by
      intro m hm
      rcases List.mem_singleton.mp hm with rfl
      exact ⟨ControlValue.bool true, rfl⟩)
    rfl

/-- C8: every transient native allocation made by an operation — the value
handle read by `min`/`max`/`def`, the value handle created by `set` (both
list variants), and the declared-values array read by `values` — is released
exactly as often as it is acquired on every exit path, in particular on the
paths where decode fails (the traces do not depend on the decode
outcome). -/
theorem transient_allocations_released {α β : Type} (bound : NativeValue)
    (decls : List NativeValue) (l l2 : ControlListState)
    (C : Control α) (v : α) (P : Property β) (w : β) :
    ReleasedExactly (ControlInfo.minOp bound).2 ∧
    ReleasedExactly (ControlInfo.maxOp bound).2 ∧
    ReleasedExactly (ControlInfo.defOp bound).2 ∧
    ReleasedExactly (ControlInfo.valuesOp decls).2 ∧
    ReleasedExactly (ControlList.setOp l C v).2 ∧
    ReleasedExactly (PropertyList.setOp l2 P w).2 :=
  ⟨fun _ => ⟨rfl, rfl⟩, fun _ => ⟨rfl, rfl⟩, fun _ => ⟨rfl, rfl⟩,
   fun _ => ⟨rfl, rfl⟩, fun _ => ⟨rfl, rfl⟩, fun _ => ⟨rfl, rfl⟩⟩

/-- C9: the Control List and the Property List variant are structurally
identical — for the same native list state and typed entries with the same
underlying protocol data, `get` computes the same result and `set` produces
the same result and resulting state; they differ only in the capability
marker their signatures accept. -/
theorem lists_structurally_identical {α : Type} (C : Control α) (P : Property α)
    (l : ControlListState) (v : α) (h : C.toControlEntry = P.toControlEntry) :
    ControlList.get l C = PropertyList.get l P ∧
    ControlList.set l C v = PropertyList.set l P v := by
  obtain ⟨E⟩ := C
  obtain ⟨F⟩ := P
  have hEF : E = F := h
  subst hEF
  exact ⟨rfl, rfl⟩

/-- Witness for C9: the boolean entry wrapped as a Control and as a Property
computes the same `get` on the empty list. -/
theorem lists_structurally_identical_witness :
    ControlList.get [] (Control.mk AeEnable.toControlEntry) =
      PropertyList.get [] (Property.mk AeEnable.toControlEntry) :=
  (lists_structurally_identical (Control.mk AeEnable.toControlEntry)
    (Property.mk AeEnable.toControlEntry) [] true rfl).1

/-- C10: reading never mutates the list — `get` (in state-threading form,
on every exit path including `NotFound` and `ValueError`) returns the list
state unchanged and computes the same result as the plain `get`, and an
iterator step leaves the underlying list state unchanged, also for a
freshly created iterator. -/
theorem reads_leave_list_unchanged {α : Type} (l : ControlListState) (C : Control α)
    (it : ControlListRefIterator) :
    (ControlList.getS l C).2 = l ∧
    (ControlList.getS l C).1 = ControlList.get l C ∧
    (ControlListRefIterator.nextS it l).2 = l ∧
    (ControlListRefIterator.nextS (ControlList.iter l) l).2 = l := by
  refine ⟨?_, ?_, rfl, rfl⟩
  · unfold ControlList.getS libcamera_control_list_getS
    cases h1 : libcamera_control_list_get l C.ID with
    | none => rfl
    | some nv =>
      cases h2 : ControlValue.read nv with
      | error e => simp [h2]
      | ok val =>
        cases h3 : C.try_from val with
        | error e => simp [h2, h3]
        | ok c => simp [h2, h3]
  · unfold ControlList.getS libcamera_control_list_getS ControlList.get
    cases h1 : libcamera_control_list_get l C.ID with
    | none => rfl
    | some nv =>
      cases h2 : ControlValue.read nv with
      | error e => simp [h2]
      | ok val =>
        cases h3 : C.try_from val with
        | error e => simp [h2, h3]
        | ok c => simp [h2, h3]

end LibcameraRS
